import Mathlib

/-!
Verification development for the media-asset pipeline script
`.github/scripts/process_file.py`.

The script processes one media file per invocation: it loads the JSON index
`index.json`, looks up (or creates) the record keyed by the file's content
hash, runs the pending pipeline stages (Gemini naming, image or video
derivative generation, HTML page generation), and writes the index back.

The data model (one `AssetData` per record), the store helpers
(`load_index_data`, `save_index_data`, `find_asset_in_index`,
`update_asset_in_index`) and the control flow of `main` are embedded below as
executable Lean definitions.  External effects — the Gemini naming
subprocess, the `convert` / `ffmpeg` / `exiftool` invocations, the HTML
template read and page write, and on-disk existence checks — enter through an
explicit environment record `Env`; every other line of `main` is translated
directly from the source.  Machine-level granularity notes:

* dictionaries are embedded as structures in which every key is present, so
  the `setdefault` calls of lines 122-125 are identities;
* `full_description_content` (lines 196-213) flows only into the generated
  HTML text, which no record field and no claim observes, so its value is not
  tracked; the control flow of that block (the `sys.exit(1)` on a missing
  base name, lines 214-219) is embedded faithfully;
* each oracle bit of `Env` covers one external conversion call together with
  its `exiftool` / cleanup bookkeeping (all failure modes of the loop body
  other than the deterministic `TypeError` noted below are drawn from the
  environment);
* line 429 (and 450) of the video loop evaluates
  `BASE_OUTPUT_DIR.name / VIDEO_DIR.name / mp4_filename`, a `str / str`
  expression that raises `TypeError`; it is caught by the loop's generic
  `except Exception` handler, so the video loop always aborts on its first
  iteration with an empty manifest.  Line 389 of the HTML step evaluates the
  same kind of `str / str` expression, and there the exception is *not*
  caught (the handler covers only `FileNotFoundError` and `IOError`), so a
  successful HTML page write crashes the process before the index is saved.
  Both behaviours are embedded faithfully.
-/

namespace ProcessFile

/-- One entry of `outputs.image_files`. -/
structure ImageFileEntry where
  format : String
  width : Nat
  path : String
  deriving DecidableEq

/-- One entry of `outputs.video_files`. -/
structure VideoFileEntry where
  format : String
  height : Nat
  path : String
  deriving DecidableEq

/-- The `outputs` sub-object of an asset record. -/
structure OutputsData where
  type : Option String
  html_page_path : Option String
  image_files : List ImageFileEntry
  video_files : List VideoFileEntry
  deriving DecidableEq

/-- One asset record of `index.json`.  The field `raw_content_url_base`
embeds the script's `raw_content_url_prefix` key (renamed here). -/
structure AssetData where
  source_file_path : String
  source_hash : String
  base_name : Option String
  description_markdown_path : Option String
  processed_steps : List String
  outputs : OutputsData
  raw_content_url_base : String
  deriving DecidableEq

/-- Stage identifier `gemini_description` (line 20). -/
def STEP_GEMINI_DESCRIPTION : String := "gemini_description"

/-- Stage identifier `image_conversion` (line 21). -/
def STEP_IMAGE_CONVERSION : String := "image_conversion"

/-- Stage identifier `html_generation` (line 22). -/
def STEP_HTML_GENERATION : String := "html_generation"

/-- Stage identifier `video_conversion` (line 23). -/
def STEP_VIDEO_CONVERSION : String := "video_conversion"

/-- The command-line arguments of one invocation (lines 88-95). -/
structure Args where
  input_file : String
  file_hash : String
  github_repository : String
  github_ref_for_raw_url : String
  deriving DecidableEq

/-- Outcome of the Gemini naming subprocess (lines 154-185): normal return
with captured stdout, non-zero return code, `FileNotFoundError`, or any other
exception. -/
inductive GeminiOutcome where
  | ok (stdout : String)
  | scriptFailed
  | scriptMissing
  | exceptionRaised
  deriving DecidableEq

/-- The external world of one run.  `imageConvertOk w fmt` (resp.
`videoConvertOk h fmt`) reports whether the `convert` (resp. `ffmpeg`) call
for that size class and encoding, together with its bookkeeping, completes
without exception; `htmlOk` reports whether the HTML template is read and the
page file is written without `FileNotFoundError` / `IOError`; `fileExists`
answers the `Path.exists` probes. -/
structure Env where
  gemini : GeminiOutcome
  imageConvertOk : Nat → String → Bool
  videoConvertOk : Nat → String → Bool
  htmlOk : Bool
  fileExists : String → Bool

/-- One stage-executor invocation, recorded in the order the run performs
them.  `imageConv w fmt b` is one `convert` call for width `w`, encoding
`fmt` and base name `b`; similarly for `videoConv` and `ffmpeg`.  `htmlGen b`
is one entry into the HTML generation body. -/
inductive Ev where
  | gemini
  | imageConv (width : Nat) (fmt : String) (base : String)
  | htmlGen (base : String)
  | videoConv (height : Nat) (fmt : String) (base : String)
  deriving DecidableEq

/-- The pipeline stage a trace event belongs to. -/
def stepOfEv : Ev → String
  | .gemini => STEP_GEMINI_DESCRIPTION
  | .imageConv _ _ _ => STEP_IMAGE_CONVERSION
  | .htmlGen _ => STEP_HTML_GENERATION
  | .videoConv _ _ _ => STEP_VIDEO_CONVERSION

/-- The base name a trace event derives filenames from, if any. -/
def evBase : Ev → Option String
  | .gemini => none
  | .imageConv _ _ b => some b
  | .htmlGen b => some b
  | .videoConv _ _ b => some b

/- ### The persisted index file (store layer) -/

/-- The observable states of `index.json` as `load_index_data` (lines 37-50)
distinguishes them: absent, present but not JSON-parseable, present and
parseable but not a list, or a parseable list of records. -/
inductive IndexFileState where
  | absent
  | malformed
  | notList
  | list (records : List AssetData)
  deriving DecidableEq

/-- `load_index_data` (lines 37-50): returns the parsed list when the file is
a JSON list, and the empty list when the file is absent, raises
`json.JSONDecodeError`, or holds a non-list value. -/
def load_index_data : IndexFileState → List AssetData
  | .absent => []
  | .malformed => []
  | .notList => []
  | .list records => records

/-- The text of `index.json` at the granularity at which `save_index_data`
writes it: `json.dump` emits the opening bracket, then the records in order,
then the closing bracket.  `written` is the list of fully emitted records and
`terminated` says whether the closing bracket was reached.  A JSON array text
is parseable exactly when it is terminated: every strict prefix of a
serialized array is unbalanced. -/
structure IndexFileText where
  written : List AssetData
  terminated : Bool
  deriving DecidableEq

/-- How an interrupted `json.dump` left the text: `failAfter k` means the
`IOError` struck after `k` records were emitted. -/
inductive WriteOutcome where
  | ok
  | failAfter (k : Nat)
  deriving DecidableEq

/-- `save_index_data` (lines 52-59) at file level.  `open(index_path, "w")`
truncates the file before anything is written, so the old text plays no role
in the result.  On success the full collection is emitted; on an `IOError`
after `k` records the file holds an unterminated prefix.  The second
component records whether the error branch (which only logs; the exception is
swallowed) was taken. -/
def save_index_data (_old : Option IndexFileText) (data : List AssetData) :
    WriteOutcome → IndexFileText × Bool
  | .ok => (⟨data, true⟩, false)
  | .failAfter k => (⟨data.take k, false⟩, true)

/-- How a later `load_index_data` sees a given file text: a terminated array
parses to its records; an unterminated one raises `json.JSONDecodeError`. -/
def stateOfText (t : IndexFileText) : IndexFileState :=
  if t.terminated then .list t.written else .malformed

/-- `find_asset_in_index` (lines 62-67): first record whose `source_hash`
matches. -/
def find_asset_in_index : List AssetData → String → Option AssetData
  | [], _ => none
  | a :: rest, h => if a.source_hash = h then some a else find_asset_in_index rest h

/-- Replacement walk of `update_asset_in_index` (lines 76-82): replace the
first record with a matching `source_hash`, or append. -/
def upsertGo (asset : AssetData) : List AssetData → List AssetData
  | [] => [asset]
  | a :: rest =>
      if a.source_hash = asset.source_hash then asset :: rest
      else a :: upsertGo asset rest

/-- `update_asset_in_index` (lines 69-82): rejects (returns the collection
unchanged) when the record's `source_hash` is falsy, otherwise upserts. -/
def update_asset_in_index (index : List AssetData) (asset : AssetData) : List AssetData :=
  if asset.source_hash = "" then index else upsertGo asset index

/- ### Character-level string helpers

The Python string operations used by `main` (`str.lower`, `str.strip`,
slicing, substring tests, `Path.name`) are embedded as structural recursions
over `List Char` so that every definition evaluates by reduction. -/

/-- ASCII lowercasing of one character (`str.lower`; the strings this run
lowercases — extensions and the Gemini stdout test — are treated at ASCII
granularity). -/
def lowerChar (c : Char) : Char :=
  if 'A' ≤ c ∧ c ≤ 'Z' then Char.ofNat (c.toNat + 32) else c

/-- `str.lower`. -/
def lowerStr (s : String) : String := ⟨s.data.map lowerChar⟩

/-- The whitespace stripped by `str.strip`. -/
def isWs (c : Char) : Bool := c = ' ' || c = '\n' || c = '\t' || c = '\r'

/-- `str.strip()`: drop whitespace from both ends. -/
def trimStr (s : String) : String :=
  ⟨((s.data.dropWhile isWs).reverse.dropWhile isWs).reverse⟩

/-- Sequence prefix test. -/
def isPrefSeq : List Char → List Char → Bool
  | [], _ => true
  | _ :: _, [] => false
  | x :: xs, y :: ys => x = y && isPrefSeq xs ys

/-- Substring occurrence test (`needle in hay`). -/
def containsSeq (needle : List Char) : List Char → Bool
  | [] => isPrefSeq needle []
  | c :: cs => isPrefSeq needle (c :: cs) || containsSeq needle cs

/- ### Helpers of `main` -/

/-- The `raw_content_url_prefix` value built at lines 117 and 126. -/
def rawUrlOf (args : Args) : String :=
  "https://raw.githubusercontent.com/" ++ args.github_repository ++ "/"
    ++ args.github_ref_for_raw_url ++ "/"

/-- The fresh record created at lines 105-118 for an unseen hash. -/
def newAsset (args : Args) : AssetData :=
  { source_file_path := args.input_file
    source_hash := args.file_hash
    base_name := none
    description_markdown_path := none
    processed_steps := []
    outputs :=
      { type := none
        html_page_path := none
        image_files := []
        video_files := [] }
    raw_content_url_base := rawUrlOf args }

/-- Lines 103-127: create the record if the hash is new, otherwise refresh
`raw_content_url_prefix` and `source_file_path` (the `setdefault` calls are
identities in this typed embedding). -/
def prepAsset (found : Option AssetData) (args : Args) : AssetData :=
  match found with
  | none => newAsset args
  | some a =>
      { a with raw_content_url_base := rawUrlOf args, source_file_path := args.input_file }

/-- `args.file_hash[:8]`, used by every fallback name. -/
def hash8 (args : Args) : String := ⟨args.file_hash.data.take 8⟩

/-- The check `"error-" in gemini_output_base_name.lower()` of line 158. -/
def containsErrorToken (s : String) : Bool :=
  containsSeq "error-".data (lowerStr s).data

/-- Python-set insertion on the `processed_steps` working set (kept as a
duplicate-free extension of the stored list). -/
def addStep (s : String) (steps : List String) : List String :=
  if s ∈ steps then steps else steps ++ [s]

/-- Lexicographic (code point) string comparison, the order `sorted` uses. -/
def charListLe : List Char → List Char → Bool
  | [], _ => true
  | _ :: _, [] => false
  | x :: xs, y :: ys =>
      if x < y then true else if y < x then false else charListLe xs ys

/-- The `a <= b` test on strings backing `sorted`. -/
def strLeB (a b : String) : Bool := charListLe a.data b.data

/-- Ordered insertion for `sortSteps`. -/
def insertSorted (x : String) : List String → List String
  | [] => [x]
  | y :: ys => if strLeB x y = true then x :: y :: ys else y :: insertSorted x ys

/-- `sorted(list(processed_steps))` (lines 172, 300, 391, 465). -/
def sortSteps : List String → List String
  | [] => []
  | x :: xs => insertSorted x (sortSteps xs)

/-- Accumulator walk for `pathName`: keep the characters after the last
slash. -/
def lastComponentAux (acc : List Char) : List Char → List Char
  | [] => acc
  | c :: cs => if c = '/' then lastComponentAux [] cs else lastComponentAux (acc ++ [c]) cs

/-- `Path(p).name`: the final path component. -/
def pathName (p : String) : String := ⟨lastComponentAux [] p.data⟩

/-- `Path(p).suffix` as CPython computes it: the final component from its
last dot onward, provided that dot is neither the first nor the last
character of the component. -/
def pathSuffix (p : String) : String :=
  let cs := (pathName p).data
  match cs.reverse.findIdx? (fun c => c = '.') with
  | none => ""
  | some j =>
      let i := cs.length - 1 - j
      if 0 < i ∧ i < cs.length - 1 then ⟨cs.drop i⟩ else ""

/-- The image extensions of line 226. -/
def imageExts : List String := [".jpg", ".jpeg", ".png", ".gif", ".webp"]

/-- The video extensions of line 227. -/
def videoExts : List String := [".mp4", ".mov", ".avi", ".mkv", ".webm", ".flv"]

/-- Lines 225-235: classify the (lowercased) extension; images are tested
first, everything unrecognized is `unknown`. -/
def classifyType (ext : String) : String :=
  if ext ∈ imageExts then "image" else if ext ∈ videoExts then "video" else "unknown"

/-- The lowercased extension of the input file (line 225). -/
def extOf (args : Args) : String := lowerStr (pathSuffix args.input_file)

/- ### Stage bodies -/

/-- Result of the Gemini naming block: the run's working base name
`current_base_name`, the updated record, the updated working step set, and
the executor trace. -/
structure NamingOut where
  cb : Option String
  asset : AssetData
  steps : List String
  trace : List Ev
  deriving DecidableEq

/-- Lines 136-193, the Gemini description step.  If the stage is already
recorded, the stored name is reused (with the `generic-recovery` repair of
lines 189-193 when it is missing or empty).  Otherwise the subprocess runs:
on a clean exit its stripped stdout is taken unless it is empty or contains
`error-`, in which case — like every failure branch — a deterministic
fallback name is used and neither the record nor the step set is touched. -/
def geminiStage (args : Args) (env : Env) (a : AssetData) (steps : List String) :
    NamingOut :=
  if STEP_GEMINI_DESCRIPTION ∈ steps then
    match a.base_name with
    | some s =>
        if s = "" then
          let nm := "generic-recovery-" ++ hash8 args
          ⟨some nm, { a with base_name := some nm }, steps, []⟩
        else ⟨some s, a, steps, []⟩
    | none =>
        let nm := "generic-recovery-" ++ hash8 args
        ⟨some nm, { a with base_name := some nm }, steps, []⟩
  else
    match env.gemini with
    | .ok rawOut =>
        let out := trimStr rawOut
        if containsErrorToken out = true ∨ out = "" then
          ⟨some ("generic-media-" ++ hash8 args), a, steps, [.gemini]⟩
        else
          let steps' := addStep STEP_GEMINI_DESCRIPTION steps
          ⟨some out,
            { a with
                base_name := some out
                description_markdown_path :=
                  some ("processed_media/descriptions/" ++ out ++ ".md")
                processed_steps := sortSteps steps' },
            steps', [.gemini]⟩
    | .scriptFailed =>
        ⟨some ("generic-media-script-failed-" ++ hash8 args), a, steps, [.gemini]⟩
    | .scriptMissing =>
        ⟨some ("generic-media-script-missing-" ++ hash8 args), a, steps, [.gemini]⟩
    | .exceptionRaised =>
        ⟨some ("generic-media-exception-" ++ hash8 args), a, steps, [.gemini]⟩

/-- One generated image entry (lines 267-269 and 284-286): the stored path is
relative to `processed_media`. -/
def imgEntry (b : String) (w : Nat) (fmt : String) : ImageFileEntry :=
  { format := fmt, width := w, path := "images/" ++ b ++ "-" ++ toString w ++ "w." ++ fmt }

/-- The configured image widths (line 248). -/
def imageWidthsList : List Nat := [1920, 1280, 640]

/-- Result of the conversion loop: the accumulated manifest entries, the
`conversion_ok` flag, and the conversion attempts made. -/
structure LoopOut where
  filesI : List ImageFileEntry
  ok : Bool
  trace : List Ev
  deriving DecidableEq

/-- The image conversion loop (lines 252-296).  Per width: the JPEG `convert`
runs first (appending its entry on success), then the WebP `convert`; the
first failure sets `conversion_ok = False` and breaks out of the loop. -/
def imageLoop (env : Env) (b : String) : List Nat → LoopOut
  | [] => ⟨[], true, []⟩
  | w :: ws =>
      if env.imageConvertOk w "jpg" = true then
        if env.imageConvertOk w "webp" = true then
          let rest := imageLoop env b ws
          ⟨imgEntry b w "jpg" :: imgEntry b w "webp" :: rest.filesI, rest.ok,
            .imageConv w "jpg" b :: .imageConv w "webp" b :: rest.trace⟩
        else
          ⟨[imgEntry b w "jpg"], false, [.imageConv w "jpg" b, .imageConv w "webp" b]⟩
      else ⟨[], false, [.imageConv w "jpg" b]⟩

/-- Result of a derivative stage: the updated record, the updated working
step set, and the executor trace. -/
structure StageOut where
  asset : AssetData
  steps : List String
  trace : List Ev
  deriving DecidableEq

/-- Lines 246-305, the image conversion stage.  When pending, the manifest is
cleared, the loop runs, and `image_conversion` is recorded only when every
width and encoding succeeded. -/
def imageStage (env : Env) (b : String) (a : AssetData) (steps : List String) :
    StageOut :=
  if STEP_IMAGE_CONVERSION ∈ steps then ⟨a, steps, []⟩
  else
    let lp := imageLoop env b imageWidthsList
    let a1 := { a with outputs := { a.outputs with image_files := lp.filesI } }
    if lp.ok = true then
      let steps' := addStep STEP_IMAGE_CONVERSION steps
      ⟨{ a1 with processed_steps := sortSteps steps' }, steps', lp.trace⟩
    else ⟨a1, steps, lp.trace⟩

/-- The single well-known path probed by the HTML gate (line 308):
`IMAGE_DIR / f"{current_base_name}-640w.jpg"`. -/
def expectedImagePath (b : String) : String :=
  "processed_media/images/" ++ b ++ "-640w.jpg"

/-- Result of the HTML block: whether the uncaught `TypeError` of line 389
terminated the process, and the executor trace. -/
structure HtmlOut where
  crashed : Bool
  trace : List Ev
  deriving DecidableEq

/-- Lines 307-399, the HTML generation step.  The gate (line 309) passes when
`image_conversion` is recorded or the single expected 640-width JPEG exists
on disk.  When the step then runs: a template read failure or a write error
is caught and leaves everything unchanged; a successful page write reaches
line 389, whose `str / str` expression raises an uncaught `TypeError`, so the
record is never updated and `html_generation` is never recorded. -/
def htmlStage (env : Env) (b : String) (steps : List String) : HtmlOut :=
  if STEP_IMAGE_CONVERSION ∈ steps ∨ env.fileExists (expectedImagePath b) = true then
    if STEP_HTML_GENERATION ∈ steps then ⟨false, []⟩
    else if env.htmlOk = true then ⟨true, [.htmlGen b]⟩
    else ⟨false, [.htmlGen b]⟩
  else ⟨false, []⟩

/-- The configured video heights (line 404). -/
def videoHeightsList : List Nat := [1080, 720]

/-- Lines 402-470, the video conversion stage.  When pending, the manifest is
cleared and the loop starts at height 1080 with the MP4 `ffmpeg` call.  If
that call fails, `CalledProcessError` breaks the loop; if it succeeds, the
manifest append of line 428-430 evaluates
`BASE_OUTPUT_DIR.name / VIDEO_DIR.name / mp4_filename` — a `str / str`
division raising `TypeError`, caught by the generic handler of line 458 —
and the loop breaks before appending.  Either way the loop aborts on its
first sub-unit: no entry is ever appended, no further height or encoding is
attempted, and `video_conversion` is never recorded. -/
def videoStage (env : Env) (b : String) (a : AssetData) (steps : List String) :
    StageOut :=
  if STEP_VIDEO_CONVERSION ∈ steps then ⟨a, steps, []⟩
  else
    let cleared := { a with outputs := { a.outputs with video_files := [] } }
    if env.videoConvertOk 1080 "mp4" = true then
      ⟨cleared, steps, [.videoConv 1080 "mp4" b]⟩
    else
      ⟨cleared, steps, [.videoConv 1080 "mp4" b]⟩

/- ### The whole run -/

/-- The observable outcome of one invocation of `main`: the in-memory record
at the point the process ends, the collection handed to `save_index_data`
(`none` when the run crashed before saving), the process exit code, the
executor trace, and the final `current_base_name`. -/
structure RunResult where
  asset : AssetData
  savedIndex : Option (List AssetData)
  exitCode : Nat
  trace : List Ev
  usedBase : Option String
  deriving DecidableEq

/-- Lines 214-219: persist the partial record and `sys.exit(1)` because no
usable base name was established. -/
def abortRun (index0 : List AssetData) (n : NamingOut) : RunResult :=
  ⟨n.asset, some (update_asset_in_index index0 n.asset), 1, n.trace, n.cb⟩

/-- Lines 99-193 of `main`: load-and-lookup followed by the naming block. -/
def namingOf (args : Args) (index0 : List AssetData) (env : Env) : NamingOut :=
  let a0 := prepAsset (find_asset_in_index index0 args.file_hash) args
  geminiStage args env a0 a0.processed_steps

/-- The record after the `outputs.type` assignment of lines 230-235. -/
def typedAsset (n : NamingOut) (ty : String) : AssetData :=
  { n.asset with outputs := { n.asset.outputs with type := some ty } }

/-- Lines 224-478 of `main`, entered with the established base name `b`:
extension classification with the `outputs.type` assignment, the per-type
stage sequence, and the final upsert-and-save.  In the image branch a crash
of the HTML step (line 389) ends the process with exit code 1 before
anything is saved; every other path saves and exits 0. -/
def runAfterNaming (args : Args) (index0 : List AssetData) (env : Env)
    (n : NamingOut) (b : String) : RunResult :=
  let ty := classifyType (extOf args)
  let a1 := typedAsset n ty
  if ty = "image" then
    let s1 := imageStage env b a1 n.steps
    let hs := htmlStage env b s1.steps
    if hs.crashed = true then
      ⟨s1.asset, none, 1, n.trace ++ s1.trace ++ hs.trace, some b⟩
    else
      ⟨s1.asset, some (update_asset_in_index index0 s1.asset), 0,
        n.trace ++ s1.trace ++ hs.trace, some b⟩
  else if ty = "video" then
    let s1 := videoStage env b a1 n.steps
    ⟨s1.asset, some (update_asset_in_index index0 s1.asset), 0,
      n.trace ++ s1.trace, some b⟩
  else
    ⟨a1, some (update_asset_in_index index0 a1), 0, n.trace, some b⟩

/-- `main` (lines 87-478): the naming block, then — unless no usable base
name was established (lines 214-219) — the classification and stage
sequence. -/
def runMain (args : Args) (index0 : List AssetData) (env : Env) : RunResult :=
  let n := namingOf args index0 env
  match n.cb with
  | none => abortRun index0 n
  | some b =>
      if b = "" then abortRun index0 n
      else runAfterNaming args index0 env n b

/- ### Basic lemmas about the helper functions -/

theorem mem_addStep {x s : String} {l : List String} :
    x ∈ addStep s l ↔ x = s ∨ x ∈ l := by
  unfold addStep
  split
  · constructor
    · exact fun h => Or.inr h
    · rintro (rfl | h)
      · assumption
      · assumption
  · simp [List.mem_append, or_comm]

theorem mem_insertSorted {x y : String} {l : List String} :
    x ∈ insertSorted y l ↔ x = y ∨ x ∈ l := by
  induction l with
  | nil => simp [insertSorted]
  | cons z zs ih =>
      unfold insertSorted
      split
      · simp
      · simp only [List.mem_cons, ih]
        tauto

theorem mem_sortSteps {x : String} {l : List String} :
    x ∈ sortSteps l ↔ x ∈ l := by
  induction l with
  | nil => simp [sortSteps]
  | cons z zs ih => simp [sortSteps, mem_insertSorted, ih]

theorem append_ne_empty_of_left (s t : String) (h : s.length ≠ 0) :
    s ++ t ≠ "" := by
  intro hc
  apply h
  have h2 := congrArg String.length hc
  rw [String.length_append] at h2
  have h0 : ("" : String).length = 0 := rfl
  omega

theorem find_asset_source_hash {index : List AssetData} {h : String} {rec : AssetData}
    (hf : find_asset_in_index index h = some rec) : rec.source_hash = h := by
  induction index with
  | nil => simp [find_asset_in_index] at hf
  | cons a rest ih =>
      unfold find_asset_in_index at hf
      split at hf
      · cases hf
        assumption
      · exact ih hf

theorem upsertGo_self {index : List AssetData} {h : String} {rec : AssetData}
    (hf : find_asset_in_index index h = some rec) : upsertGo rec index = index := by
  induction index with
  | nil => simp [find_asset_in_index] at hf
  | cons a rest ih =>
      unfold find_asset_in_index at hf
      by_cases ha : a.source_hash = h
      · rw [if_pos ha] at hf
        cases hf
        unfold upsertGo
        rw [if_pos rfl]
      · rw [if_neg ha] at hf
        unfold upsertGo
        have hrec := find_asset_source_hash hf
        rw [if_neg (by rw [hrec]; exact ha), ih hf]

theorem update_self {index : List AssetData} {h : String} {rec : AssetData}
    (hf : find_asset_in_index index h = some rec) :
    update_asset_in_index index rec = index := by
  unfold update_asset_in_index
  split
  · rfl
  · exact upsertGo_self hf

/- ### The working step set versus the record field

`main` keeps the completed stages twice: in the Python set `processed_steps`
and in the record field of the same name (rewritten as a sorted list whenever
a stage succeeds).  The two always agree up to membership. -/

/-- The working step set and a record's `processed_steps` field hold the same
stage identifiers. -/
def StepsAgree (a : AssetData) (steps : List String) : Prop :=
  ∀ x : String, x ∈ steps ↔ x ∈ a.processed_steps

theorem stepsAgree_self (a : AssetData) : StepsAgree a a.processed_steps :=
  fun _ => Iff.rfl

/- ### Lemmas about the naming stage -/

theorem geminiStage_cb (args : Args) (env : Env) (a : AssetData) (steps : List String) :
    ∃ s, (geminiStage args env a steps).cb = some s ∧ s ≠ "" := by
  unfold geminiStage
  split
  · split
    · split
      · exact ⟨_, rfl, append_ne_empty_of_left _ _ (by decide)⟩
      · next hs => exact ⟨_, rfl, hs⟩
    · exact ⟨_, rfl, append_ne_empty_of_left _ _ (by decide)⟩
  · split
    · dsimp only
      split
      · exact ⟨_, rfl, append_ne_empty_of_left _ _ (by decide)⟩
      · next hc =>
          push_neg at hc
          exact ⟨_, rfl, hc.2⟩
    · exact ⟨_, rfl, append_ne_empty_of_left _ _ (by decide)⟩
    · exact ⟨_, rfl, append_ne_empty_of_left _ _ (by decide)⟩
    · exact ⟨_, rfl, append_ne_empty_of_left _ _ (by decide)⟩

theorem geminiStage_skip {args : Args} {env : Env} {a : AssetData} {steps : List String}
    {s : String} (hmem : STEP_GEMINI_DESCRIPTION ∈ steps)
    (hbn : a.base_name = some s) (hs : s ≠ "") :
    geminiStage args env a steps = ⟨some s, a, steps, []⟩ := by
  unfold geminiStage
  rw [if_pos hmem]
  split
  next s2 heq =>
      rw [hbn] at heq
      injection heq with h2
      subst h2
      rw [if_neg hs]
  next heq =>
      rw [hbn] at heq
      cases heq

theorem geminiStage_steps_mono {args : Args} {env : Env} {a : AssetData}
    {steps : List String} {x : String} (hx : x ∈ steps) :
    x ∈ (geminiStage args env a steps).steps := by
  unfold geminiStage
  split
  · split
    · split
      · exact hx
      · exact hx
    · exact hx
  · split
    · dsimp only
      split
      · exact hx
      · exact mem_addStep.mpr (Or.inr hx)
    · exact hx
    · exact hx
    · exact hx

theorem geminiStage_steps_mem {args : Args} {env : Env} {a : AssetData}
    {steps : List String} {x : String} (hx : x ≠ STEP_GEMINI_DESCRIPTION) :
    x ∈ (geminiStage args env a steps).steps ↔ x ∈ steps := by
  unfold geminiStage
  split
  · split
    · split
      · exact Iff.rfl
      · exact Iff.rfl
    · exact Iff.rfl
  · split
    · dsimp only
      split
      · exact Iff.rfl
      · rw [mem_addStep]
        simp [hx]
    · exact Iff.rfl
    · exact Iff.rfl
    · exact Iff.rfl

theorem geminiStage_agree {args : Args} {env : Env} {a : AssetData}
    {steps : List String} (hag : StepsAgree a steps) :
    StepsAgree (geminiStage args env a steps).asset (geminiStage args env a steps).steps := by
  unfold geminiStage
  split
  · split
    · split
      · exact hag
      · exact hag
    · exact hag
  · split
    · dsimp only
      split
      · exact hag
      · intro x
        simp only [mem_sortSteps]
    · exact hag
    · exact hag
    · exact hag

theorem geminiStage_trace_cases (args : Args) (env : Env) (a : AssetData)
    (steps : List String) :
    ((geminiStage args env a steps).trace = [] ∧ STEP_GEMINI_DESCRIPTION ∈ steps)
      ∨ ((geminiStage args env a steps).trace = [Ev.gemini]
          ∧ STEP_GEMINI_DESCRIPTION ∉ steps) := by
  unfold geminiStage
  by_cases hmem : STEP_GEMINI_DESCRIPTION ∈ steps
  · rw [if_pos hmem]
    left
    refine ⟨?_, hmem⟩
    split
    · split
      · rfl
      · rfl
    · rfl
  · rw [if_neg hmem]
    right
    refine ⟨?_, hmem⟩
    split
    · dsimp only
      split
      · rfl
      · rfl
    · rfl
    · rfl
    · rfl

/-- The reason tag that the naming block appends to `generic-media-` on each
failure mode, when the mode is a failure: a clean exit whose stripped stdout
is empty or mentions `error-` carries no extra tag, a non-zero exit carries
`script-failed-`, a missing script `script-missing-`, any other exception
`exception-`.  A clean exit with a usable name is not a failure (`none`). -/
def geminiFailTag : GeminiOutcome → Option String
  | .ok rawOut =>
      if containsErrorToken (trimStr rawOut) = true ∨ trimStr rawOut = "" then some ""
      else none
  | .scriptFailed => some "script-failed-"
  | .scriptMissing => some "script-missing-"
  | .exceptionRaised => some "exception-"

theorem geminiStage_fail {args : Args} {env : Env} {a : AssetData}
    {steps : List String} {tag : String}
    (hmem : STEP_GEMINI_DESCRIPTION ∉ steps) (htag : geminiFailTag env.gemini = some tag) :
    geminiStage args env a steps =
      ⟨some ("generic-media-" ++ tag ++ hash8 args), a, steps, [Ev.gemini]⟩ := by
  unfold geminiStage
  rw [if_neg hmem]
  unfold geminiFailTag at htag
  split
  next rawOut heq =>
      rw [heq] at htag
      dsimp only at htag ⊢
      split
      next hc =>
          rw [if_pos hc] at htag
          cases htag
          rfl
      next hc =>
          rw [if_neg hc] at htag
          cases htag
  next heq =>
      rw [heq] at htag
      cases htag
      rfl
  next heq =>
      rw [heq] at htag
      cases htag
      rfl
  next heq =>
      rw [heq] at htag
      cases htag
      rfl

/- ### Lemmas about the image conversion loop and stage -/

theorem imageLoop_ok_iff (env : Env) (b : String) (ws : List Nat) :
    (imageLoop env b ws).ok = true ↔
      ∀ w ∈ ws, env.imageConvertOk w "jpg" = true ∧ env.imageConvertOk w "webp" = true := by
  induction ws with
  | nil => simp [imageLoop]
  | cons w ws ih =>
      by_cases h1 : env.imageConvertOk w "jpg" = true
      · by_cases h2 : env.imageConvertOk w "webp" = true
        · simp only [imageLoop, if_pos h1, if_pos h2]
          constructor
          · intro hok
            intro w' hw'
            rcases List.mem_cons.mp hw' with rfl | hw'
            · exact ⟨h1, h2⟩
            · exact (ih.mp hok) w' hw'
          · intro hall
            exact ih.mpr fun w' hw' => hall w' (List.mem_cons_of_mem _ hw')
        · simp only [imageLoop, if_pos h1, if_neg h2]
          constructor
          · intro hok
            cases hok
          · intro hall
            exact absurd (hall w (List.mem_cons_self _ _)).2 h2
      · simp only [imageLoop, if_neg h1]
        constructor
        · intro hok
          cases hok
        · intro hall
          exact absurd (hall w (List.mem_cons_self _ _)).1 h1

theorem imageLoop_trace_sub (env : Env) (b : String) (ws : List Nat) :
    ∀ ev ∈ (imageLoop env b ws).trace, ∃ w, w ∈ ws ∧ ∃ f, ev = Ev.imageConv w f b := by
  induction ws with
  | nil => simp [imageLoop]
  | cons w ws ih =>
      intro ev hev
      unfold imageLoop at hev
      by_cases h1 : env.imageConvertOk w "jpg" = true
      · rw [if_pos h1] at hev
        by_cases h2 : env.imageConvertOk w "webp" = true
        · rw [if_pos h2] at hev
          rcases List.mem_cons.mp hev with rfl | hev
          · exact ⟨w, List.mem_cons_self _ _, "jpg", rfl⟩
          rcases List.mem_cons.mp hev with rfl | hev
          · exact ⟨w, List.mem_cons_self _ _, "webp", rfl⟩
          · obtain ⟨w', hw', f, rfl⟩ := ih ev hev
            exact ⟨w', List.mem_cons_of_mem _ hw', f, rfl⟩
        · rw [if_neg h2] at hev
          rcases List.mem_cons.mp hev with rfl | hev
          · exact ⟨w, List.mem_cons_self _ _, "jpg", rfl⟩
          rcases List.mem_cons.mp hev with rfl | hev
          · exact ⟨w, List.mem_cons_self _ _, "webp", rfl⟩
          · cases hev
      · rw [if_neg h1] at hev
        rcases List.mem_cons.mp hev with rfl | hev
        · exact ⟨w, List.mem_cons_self _ _, "jpg", rfl⟩
        · cases hev

/-- Size classes that come after `w` in the configured width order. -/
def widthsAfter (w : Nat) : List Nat :=
  if w = 1920 then [1280, 640] else if w = 1280 then [640] else []

theorem imageLoop_stop (env : Env) (b : String) (w : Nat) (f : String)
    (hw : w ∈ imageWidthsList) (hf : f = "jpg" ∨ f = "webp")
    (hfail : env.imageConvertOk w f = false) :
    ∀ w' ∈ widthsAfter w, ∀ f' b', Ev.imageConv w' f' b' ∉ (imageLoop env b imageWidthsList).trace := by
  intro w' hw' f' b' hmemtr
  simp only [imageWidthsList, List.mem_cons, List.not_mem_nil, or_false] at hw
  have key : ∀ ev ∈ (imageLoop env b imageWidthsList).trace,
      ∃ wq, (wq ∈ imageWidthsList ∧ ¬ wq ∈ widthsAfter w) ∧ ∃ fq, ev = Ev.imageConv wq fq b := by
    intro ev hev
    rcases hw with rfl | rfl | rfl
    · -- w = 1920: the loop cannot get past the first width
      rcases hf with rfl | rfl
      · rw [show imageLoop env b imageWidthsList = ⟨[], false, [Ev.imageConv 1920 "jpg" b]⟩ by
            simp [imageLoop, imageWidthsList, hfail]] at hev
        rcases List.mem_singleton.mp hev with rfl
        exact ⟨1920, ⟨by simp [imageWidthsList], by simp [widthsAfter]⟩, "jpg", rfl⟩
      · by_cases h1 : env.imageConvertOk 1920 "jpg" = true
        · rw [show imageLoop env b imageWidthsList =
              ⟨[imgEntry b 1920 "jpg"], false,
                [Ev.imageConv 1920 "jpg" b, Ev.imageConv 1920 "webp" b]⟩ by
              simp [imageLoop, imageWidthsList, h1, hfail]] at hev
          rcases List.mem_cons.mp hev with rfl | hev
          · exact ⟨1920, ⟨by simp [imageWidthsList], by simp [widthsAfter]⟩, "jpg", rfl⟩
          rcases List.mem_singleton.mp hev with rfl
          exact ⟨1920, ⟨by simp [imageWidthsList], by simp [widthsAfter]⟩, "webp", rfl⟩
        · rw [show imageLoop env b imageWidthsList = ⟨[], false, [Ev.imageConv 1920 "jpg" b]⟩ by
              simp [imageLoop, imageWidthsList, Bool.eq_false_iff.mpr h1]] at hev
          rcases List.mem_singleton.mp hev with rfl
          exact ⟨1920, ⟨by simp [imageWidthsList], by simp [widthsAfter]⟩, "jpg", rfl⟩
    · -- w = 1280: events can mention 1920 and 1280 only
      obtain ⟨wq, hwq, fq, rfl⟩ := imageLoop_trace_sub env b imageWidthsList ev hev
      simp only [imageWidthsList, List.mem_cons, List.not_mem_nil, or_false] at hwq
      rcases hwq with rfl | rfl | rfl
      · exact ⟨1920, ⟨by simp [imageWidthsList], by simp [widthsAfter]⟩, fq, rfl⟩
      · exact ⟨1280, ⟨by simp [imageWidthsList], by simp [widthsAfter]⟩, fq, rfl⟩
      · -- width 640 cannot be reached: the loop stops at 1280
        exfalso
        have h640 : ∀ ev2 ∈ (imageLoop env b imageWidthsList).trace,
            ∀ f2 b2, ev2 ≠ Ev.imageConv 640 f2 b2 := by
          intro ev2 hev2 f2 b2
          by_cases h1 : env.imageConvertOk 1920 "jpg" = true
          · by_cases h2 : env.imageConvertOk 1920 "webp" = true
            · rcases hf with rfl | rfl
              · rw [show imageLoop env b imageWidthsList =
                    ⟨[imgEntry b 1920 "jpg", imgEntry b 1920 "webp"], false,
                      [Ev.imageConv 1920 "jpg" b, Ev.imageConv 1920 "webp" b,
                        Ev.imageConv 1280 "jpg" b]⟩ by
                    simp [imageLoop, imageWidthsList, h1, h2, hfail]] at hev2
                simp only [List.mem_cons, List.not_mem_nil, or_false] at hev2
                rcases hev2 with rfl | rfl | rfl
                · simp
                · simp
                · simp
              · by_cases h3 : env.imageConvertOk 1280 "jpg" = true
                · rw [show imageLoop env b imageWidthsList =
                      ⟨[imgEntry b 1920 "jpg", imgEntry b 1920 "webp", imgEntry b 1280 "jpg"],
                        false,
                        [Ev.imageConv 1920 "jpg" b, Ev.imageConv 1920 "webp" b,
                          Ev.imageConv 1280 "jpg" b, Ev.imageConv 1280 "webp" b]⟩ by
                      simp [imageLoop, imageWidthsList, h1, h2, h3, hfail]] at hev2
                  simp only [List.mem_cons, List.not_mem_nil, or_false] at hev2
                  rcases hev2 with rfl | rfl | rfl | rfl
                  · simp
                  · simp
                  · simp
                  · simp
                · rw [show imageLoop env b imageWidthsList =
                      ⟨[imgEntry b 1920 "jpg", imgEntry b 1920 "webp"], false,
                        [Ev.imageConv 1920 "jpg" b, Ev.imageConv 1920 "webp" b,
                          Ev.imageConv 1280 "jpg" b]⟩ by
                      simp [imageLoop, imageWidthsList, h1, h2, Bool.eq_false_iff.mpr h3]] at hev2
                  simp only [List.mem_cons, List.not_mem_nil, or_false] at hev2
                  rcases hev2 with rfl | rfl | rfl
                  · simp
                  · simp
                  · simp
            · rw [show imageLoop env b imageWidthsList =
                  ⟨[imgEntry b 1920 "jpg"], false,
                    [Ev.imageConv 1920 "jpg" b, Ev.imageConv 1920 "webp" b]⟩ by
                  simp [imageLoop, imageWidthsList, h1, Bool.eq_false_iff.mpr h2]] at hev2
              simp only [List.mem_cons, List.not_mem_nil, or_false] at hev2
              rcases hev2 with rfl | rfl
              · simp
              · simp
          · rw [show imageLoop env b imageWidthsList = ⟨[], false, [Ev.imageConv 1920 "jpg" b]⟩ by
                simp [imageLoop, imageWidthsList, Bool.eq_false_iff.mpr h1]] at hev2
            rcases List.mem_singleton.mp hev2 with rfl
            simp
        exact h640 _ hev fq b rfl
    · -- w = 640: nothing comes after
      obtain ⟨wq, hwq, fq, rfl⟩ := imageLoop_trace_sub env b imageWidthsList ev hev
      refine ⟨wq, ⟨hwq, ?_⟩, fq, rfl⟩
      simp [widthsAfter]
  obtain ⟨wq, ⟨hwqmem, hwqnot⟩, fq, heq⟩ := key _ hmemtr
  cases heq
  exact hwqnot hw'

theorem imageStage_skip {env : Env} {b : String} {a : AssetData} {steps : List String}
    (h : STEP_IMAGE_CONVERSION ∈ steps) :
    imageStage env b a steps = ⟨a, steps, []⟩ := by
  unfold imageStage
  rw [if_pos h]

theorem imageStage_run_ok {env : Env} {b : String} {a : AssetData} {steps : List String}
    (h : STEP_IMAGE_CONVERSION ∉ steps) (hok : (imageLoop env b imageWidthsList).ok = true) :
    imageStage env b a steps =
      ⟨{ a with
          outputs := { a.outputs with image_files := (imageLoop env b imageWidthsList).filesI }
          processed_steps := sortSteps (addStep STEP_IMAGE_CONVERSION steps) },
        addStep STEP_IMAGE_CONVERSION steps, (imageLoop env b imageWidthsList).trace⟩ := by
  unfold imageStage
  rw [if_neg h]
  dsimp only
  rw [if_pos hok]

theorem imageStage_run_fail {env : Env} {b : String} {a : AssetData} {steps : List String}
    (h : STEP_IMAGE_CONVERSION ∉ steps) (hok : (imageLoop env b imageWidthsList).ok ≠ true) :
    imageStage env b a steps =
      ⟨{ a with
          outputs := { a.outputs with image_files := (imageLoop env b imageWidthsList).filesI } },
        steps, (imageLoop env b imageWidthsList).trace⟩ := by
  unfold imageStage
  rw [if_neg h]
  dsimp only
  rw [if_neg hok]

theorem imageStage_steps_mono {env : Env} {b : String} {a : AssetData}
    {steps : List String} {x : String} (hx : x ∈ steps) :
    x ∈ (imageStage env b a steps).steps := by
  unfold imageStage
  split
  · exact hx
  · dsimp only
    split
    · exact mem_addStep.mpr (Or.inr hx)
    · exact hx

theorem imageStage_steps_mem {env : Env} {b : String} {a : AssetData}
    {steps : List String} {x : String} (hx : x ≠ STEP_IMAGE_CONVERSION) :
    x ∈ (imageStage env b a steps).steps ↔ x ∈ steps := by
  unfold imageStage
  split
  · exact Iff.rfl
  · dsimp only
    split
    · rw [mem_addStep]
      simp [hx]
    · exact Iff.rfl

theorem imageStage_agree {env : Env} {b : String} {a : AssetData}
    {steps : List String} (hag : StepsAgree a steps) :
    StepsAgree (imageStage env b a steps).asset (imageStage env b a steps).steps := by
  unfold imageStage
  split
  · exact hag
  · dsimp only
    split
    · intro x
      simp only [mem_sortSteps]
    · exact hag

theorem imageStage_base {env : Env} {b : String} {a : AssetData} {steps : List String} :
    (imageStage env b a steps).asset.base_name = a.base_name := by
  unfold imageStage
  split
  · rfl
  · dsimp only
    split
    · rfl
    · rfl

theorem imageStage_trace_sub {env : Env} {b : String} {a : AssetData} {steps : List String} :
    ∀ ev ∈ (imageStage env b a steps).trace,
      (∃ w, w ∈ imageWidthsList ∧ ∃ f, ev = Ev.imageConv w f b)
        ∧ STEP_IMAGE_CONVERSION ∉ steps := by
  unfold imageStage
  split
  · intro ev hev
    cases hev
  · next h =>
      dsimp only
      split
      · intro ev hev
        exact ⟨imageLoop_trace_sub env b imageWidthsList ev hev, h⟩
      · intro ev hev
        exact ⟨imageLoop_trace_sub env b imageWidthsList ev hev, h⟩

/- ### Lemmas about the HTML generation step -/

theorem htmlStage_skip_done {env : Env} {b : String} {steps : List String}
    (h : STEP_HTML_GENERATION ∈ steps) :
    htmlStage env b steps = ⟨false, []⟩ := by
  unfold htmlStage
  split <;> simp [h]

theorem htmlStage_no_gate {env : Env} {b : String} {steps : List String}
    (h : ¬ (STEP_IMAGE_CONVERSION ∈ steps ∨ env.fileExists (expectedImagePath b) = true)) :
    htmlStage env b steps = ⟨false, []⟩ := by
  unfold htmlStage
  rw [if_neg h]

theorem htmlStage_run {env : Env} {b : String} {steps : List String}
    (hgate : STEP_IMAGE_CONVERSION ∈ steps ∨ env.fileExists (expectedImagePath b) = true)
    (hnot : STEP_HTML_GENERATION ∉ steps) :
    (htmlStage env b steps).trace = [Ev.htmlGen b] := by
  unfold htmlStage
  rw [if_pos hgate, if_neg hnot]
  split
  · rfl
  · rfl

theorem htmlStage_crash {env : Env} {b : String} {steps : List String}
    (h : (htmlStage env b steps).crashed = true) :
    env.htmlOk = true ∧ (htmlStage env b steps).trace = [Ev.htmlGen b] := by
  unfold htmlStage at h ⊢
  split at h
  · split at h
    · cases h
    · split at h
      · next hok => exact ⟨hok, by rw [if_pos (by assumption), if_neg (by assumption), if_pos hok]⟩
      · cases h
  · cases h

theorem htmlStage_trace_sub {env : Env} {b : String} {steps : List String} :
    ∀ ev ∈ (htmlStage env b steps).trace,
      ev = Ev.htmlGen b ∧ STEP_HTML_GENERATION ∉ steps
        ∧ (STEP_IMAGE_CONVERSION ∈ steps ∨ env.fileExists (expectedImagePath b) = true) := by
  unfold htmlStage
  split
  · next hgate =>
      split
      · intro ev hev
        cases hev
      · next hnot =>
          split
          · intro ev hev
            rcases List.mem_singleton.mp hev with rfl
            exact ⟨rfl, hnot, hgate⟩
          · intro ev hev
            rcases List.mem_singleton.mp hev with rfl
            exact ⟨rfl, hnot, hgate⟩
  · intro ev hev
    cases hev

/- ### Lemmas about the video conversion stage -/

theorem videoStage_skip {env : Env} {b : String} {a : AssetData} {steps : List String}
    (h : STEP_VIDEO_CONVERSION ∈ steps) :
    videoStage env b a steps = ⟨a, steps, []⟩ := by
  unfold videoStage
  rw [if_pos h]

theorem videoStage_run {env : Env} {b : String} {a : AssetData} {steps : List String}
    (h : STEP_VIDEO_CONVERSION ∉ steps) :
    videoStage env b a steps =
      ⟨{ a with outputs := { a.outputs with video_files := [] } }, steps,
        [Ev.videoConv 1080 "mp4" b]⟩ := by
  unfold videoStage
  rw [if_neg h]
  dsimp only
  split
  · rfl
  · rfl

theorem videoStage_steps {env : Env} {b : String} {a : AssetData} {steps : List String} :
    (videoStage env b a steps).steps = steps := by
  unfold videoStage
  split
  · rfl
  · dsimp only
    split
    · rfl
    · rfl

theorem videoStage_asset_steps {env : Env} {b : String} {a : AssetData} {steps : List String} :
    (videoStage env b a steps).asset.processed_steps = a.processed_steps := by
  unfold videoStage
  split
  · rfl
  · dsimp only
    split
    · rfl
    · rfl

theorem videoStage_base {env : Env} {b : String} {a : AssetData} {steps : List String} :
    (videoStage env b a steps).asset.base_name = a.base_name := by
  unfold videoStage
  split
  · rfl
  · dsimp only
    split
    · rfl
    · rfl

theorem videoStage_agree {env : Env} {b : String} {a : AssetData}
    {steps : List String} (hag : StepsAgree a steps) :
    StepsAgree (videoStage env b a steps).asset (videoStage env b a steps).steps := by
  intro x
  rw [videoStage_steps, videoStage_asset_steps]
  exact hag x

theorem videoStage_trace_sub {env : Env} {b : String} {a : AssetData} {steps : List String} :
    ∀ ev ∈ (videoStage env b a steps).trace,
      ev = Ev.videoConv 1080 "mp4" b ∧ STEP_VIDEO_CONVERSION ∉ steps := by
  unfold videoStage
  split
  · intro ev hev
    cases hev
  · next h =>
      dsimp only
      split
      · intro ev hev
        rcases List.mem_singleton.mp hev with rfl
        exact ⟨rfl, h⟩
      · intro ev hev
        rcases List.mem_singleton.mp hev with rfl
        exact ⟨rfl, h⟩

/- ### Lemmas about the assembled run -/

theorem namingOf_cb (args : Args) (index0 : List AssetData) (env : Env) :
    ∃ b, (namingOf args index0 env).cb = some b ∧ b ≠ "" := by
  unfold namingOf
  exact geminiStage_cb args env _ _

theorem runMain_run {args : Args} {index0 : List AssetData} {env : Env} {b : String}
    (hcb : (namingOf args index0 env).cb = some b) (hb : b ≠ "") :
    runMain args index0 env = runAfterNaming args index0 env (namingOf args index0 env) b := by
  unfold runMain
  dsimp only
  rw [hcb]
  dsimp only
  rw [if_neg hb]

theorem classifyType_cases (e : String) :
    classifyType e = "image" ∨ classifyType e = "video" ∨ classifyType e = "unknown" := by
  unfold classifyType
  split
  · exact Or.inl rfl
  · split
    · exact Or.inr (Or.inl rfl)
    · exact Or.inr (Or.inr rfl)

theorem runAfterNaming_image {args : Args} {index0 : List AssetData} {env : Env}
    {n : NamingOut} {b : String} (hty : classifyType (extOf args) = "image") :
    runAfterNaming args index0 env n b =
      (let s1 := imageStage env b (typedAsset n "image") n.steps
       let hs := htmlStage env b s1.steps
       if hs.crashed = true then
         ⟨s1.asset, none, 1, n.trace ++ s1.trace ++ hs.trace, some b⟩
       else
         ⟨s1.asset, some (update_asset_in_index index0 s1.asset), 0,
           n.trace ++ s1.trace ++ hs.trace, some b⟩) := by
  unfold runAfterNaming
  dsimp only
  rw [hty]
  rw [if_pos rfl]

theorem runAfterNaming_video {args : Args} {index0 : List AssetData} {env : Env}
    {n : NamingOut} {b : String} (hty : classifyType (extOf args) = "video") :
    runAfterNaming args index0 env n b =
      (let s1 := videoStage env b (typedAsset n "video") n.steps
       ⟨s1.asset, some (update_asset_in_index index0 s1.asset), 0,
         n.trace ++ s1.trace, some b⟩) := by
  unfold runAfterNaming
  dsimp only
  rw [hty]
  rw [if_neg (by decide), if_pos rfl]

theorem runAfterNaming_unknown {args : Args} {index0 : List AssetData} {env : Env}
    {n : NamingOut} {b : String} (hty : classifyType (extOf args) = "unknown") :
    runAfterNaming args index0 env n b =
      ⟨typedAsset n "unknown", some (update_asset_in_index index0 (typedAsset n "unknown")),
        0, n.trace, some b⟩ := by
  unfold runAfterNaming
  dsimp only
  rw [hty]
  rw [if_neg (by decide), if_neg (by decide)]

theorem runAfterNaming_usedBase (args : Args) (index0 : List AssetData) (env : Env)
    (n : NamingOut) (b : String) :
    (runAfterNaming args index0 env n b).usedBase = some b := by
  rcases classifyType_cases (extOf args) with hty | hty | hty
  · rw [runAfterNaming_image hty]
    dsimp only
    split
    · rfl
    · rfl
  · rw [runAfterNaming_video hty]
  · rw [runAfterNaming_unknown hty]

theorem runAfterNaming_base (args : Args) (index0 : List AssetData) (env : Env)
    (n : NamingOut) (b : String) :
    (runAfterNaming args index0 env n b).asset.base_name = n.asset.base_name := by
  rcases classifyType_cases (extOf args) with hty | hty | hty
  · rw [runAfterNaming_image hty]
    dsimp only
    split
    · rw [imageStage_base]
      rfl
    · rw [imageStage_base]
      rfl
  · rw [runAfterNaming_video hty]
    dsimp only
    rw [videoStage_base]
    rfl
  · rw [runAfterNaming_unknown hty]
    rfl

theorem runAfterNaming_steps_mono {args : Args} {index0 : List AssetData} {env : Env}
    {n : NamingOut} {b : String} (hag : StepsAgree n.asset n.steps) :
    ∀ x ∈ n.steps, x ∈ (runAfterNaming args index0 env n b).asset.processed_steps := by
  intro x hx
  have hag1 : StepsAgree (typedAsset n "image") n.steps := hag
  have hag2 : StepsAgree (typedAsset n "video") n.steps := hag
  rcases classifyType_cases (extOf args) with hty | hty | hty
  · rw [runAfterNaming_image hty]
    dsimp only
    have := (@imageStage_agree env b (typedAsset n "image") n.steps hag1) x
    split
    · exact this.mp (imageStage_steps_mono hx)
    · exact this.mp (imageStage_steps_mono hx)
  · rw [runAfterNaming_video hty]
    dsimp only
    exact (@videoStage_agree env b (typedAsset n "video") n.steps hag2 x).mp
      (by rw [videoStage_steps]; exact hx)
  · rw [runAfterNaming_unknown hty]
    exact (hag x).mp hx

theorem runAfterNaming_steps_mem {args : Args} {index0 : List AssetData} {env : Env}
    {n : NamingOut} {b : String} {x : String} (hag : StepsAgree n.asset n.steps)
    (hx : x ≠ STEP_IMAGE_CONVERSION) :
    x ∈ (runAfterNaming args index0 env n b).asset.processed_steps
      ↔ x ∈ n.asset.processed_steps := by
  have hag1 : StepsAgree (typedAsset n "image") n.steps := hag
  have hag2 : StepsAgree (typedAsset n "video") n.steps := hag
  rcases classifyType_cases (extOf args) with hty | hty | hty
  · rw [runAfterNaming_image hty]
    dsimp only
    have hmem := @imageStage_steps_mem env b (typedAsset n "image") n.steps x hx
    have hagpost := @imageStage_agree env b (typedAsset n "image") n.steps hag1
    split
    · rw [← hagpost x, hmem, hag x]
    · rw [← hagpost x, hmem, hag x]
  · rw [runAfterNaming_video hty]
    dsimp only
    rw [videoStage_asset_steps]
    exact Iff.rfl
  · rw [runAfterNaming_unknown hty]
    exact Iff.rfl

theorem runAfterNaming_imgstep_mem {args : Args} {index0 : List AssetData} {env : Env}
    {n : NamingOut} {b : String} (hag : StepsAgree n.asset n.steps)
    (himg : STEP_IMAGE_CONVERSION ∉ n.steps)
    (hty : classifyType (extOf args) = "image") :
    STEP_IMAGE_CONVERSION ∈ (runAfterNaming args index0 env n b).asset.processed_steps
      ↔ (imageLoop env b imageWidthsList).ok = true := by
  rw [runAfterNaming_image hty]
  dsimp only
  by_cases hok : (imageLoop env b imageWidthsList).ok = true
  · rw [imageStage_run_ok himg hok]
    dsimp only
    constructor
    · intro _
      exact hok
    · intro _
      split
      · exact mem_sortSteps.mpr (mem_addStep.mpr (Or.inl rfl))
      · exact mem_sortSteps.mpr (mem_addStep.mpr (Or.inl rfl))
  · rw [imageStage_run_fail himg hok]
    dsimp only
    constructor
    · intro hmem
      split at hmem
      · exact absurd ((hag _).mpr hmem) himg
      · exact absurd ((hag _).mpr hmem) himg
    · intro hc
      exact absurd hc hok

theorem runAfterNaming_saved {args : Args} {index0 : List AssetData} {env : Env}
    {n : NamingOut} {b : String} :
    ∀ d, (runAfterNaming args index0 env n b).savedIndex = some d →
      d = update_asset_in_index index0 (runAfterNaming args index0 env n b).asset := by
  intro d hd
  rcases classifyType_cases (extOf args) with hty | hty | hty
  · rw [runAfterNaming_image hty] at hd ⊢
    dsimp only at hd ⊢
    split at hd
    · next hcr =>
        cases hd
    · next hcr =>
        cases hd
        rw [if_neg hcr]
  · rw [runAfterNaming_video hty] at hd ⊢
    dsimp only at hd ⊢
    cases hd
    rfl
  · rw [runAfterNaming_unknown hty] at hd ⊢
    cases hd
    rfl

theorem naming_trace_pending (args : Args) (index0 : List AssetData) (env : Env) :
    ∀ ev ∈ (namingOf args index0 env).trace,
      ev = Ev.gemini ∧ STEP_GEMINI_DESCRIPTION ∉
        (prepAsset (find_asset_in_index index0 args.file_hash) args).processed_steps := by
  unfold namingOf
  rcases geminiStage_trace_cases args env
      (prepAsset (find_asset_in_index index0 args.file_hash) args)
      (prepAsset (find_asset_in_index index0 args.file_hash) args).processed_steps with
    ⟨h, _⟩ | ⟨h, hpend⟩
  · rw [h]
    intro ev hev
    cases hev
  · rw [h]
    intro ev hev
    rcases List.mem_singleton.mp hev with rfl
    exact ⟨rfl, hpend⟩

theorem imageStage_run_trace {env : Env} {b : String} {a : AssetData} {steps : List String}
    (h : STEP_IMAGE_CONVERSION ∉ steps) :
    (imageStage env b a steps).trace = (imageLoop env b imageWidthsList).trace := by
  unfold imageStage
  rw [if_neg h]
  dsimp only
  split
  · rfl
  · rfl

theorem runAfterNaming_image_shape {args : Args} {index0 : List AssetData} {env : Env}
    {n : NamingOut} {b : String} (hty : classifyType (extOf args) = "image") :
    (runAfterNaming args index0 env n b).asset
        = (imageStage env b (typedAsset n "image") n.steps).asset
      ∧ (runAfterNaming args index0 env n b).trace
        = n.trace ++ (imageStage env b (typedAsset n "image") n.steps).trace
            ++ (htmlStage env b (imageStage env b (typedAsset n "image") n.steps).steps).trace := by
  rw [runAfterNaming_image hty]
  dsimp only
  split
  · exact ⟨rfl, rfl⟩
  · exact ⟨rfl, rfl⟩

/-- Size classes that come after `h` in the configured height order. -/
def heightsAfter (h : Nat) : List Nat :=
  if h = 1080 then [720] else []

/- ### The claims -/

/-- The stages `main` can run for an asset of the given classified type: the
naming stage is always eligible; image assets additionally get image
conversion and HTML generation, video assets video conversion. -/
def applicableSteps (ty : String) : List String :=
  if ty = "image" then
    [STEP_GEMINI_DESCRIPTION, STEP_IMAGE_CONVERSION, STEP_HTML_GENERATION]
  else if ty = "video" then [STEP_GEMINI_DESCRIPTION, STEP_VIDEO_CONVERSION]
  else [STEP_GEMINI_DESCRIPTION]

theorem gem_applicable (ty : String) :
    STEP_GEMINI_DESCRIPTION ∈ applicableSteps ty := by
  unfold applicableSteps
  split
  · exact List.mem_cons_self _ _
  · split
    · exact List.mem_cons_self _ _
    · exact List.mem_cons_self _ _

/-- Claim C1: if the looked-up record already lists every stage applicable to
its asset type as completed, carries a non-empty base name, and matches the
invocation (same source path, same URL context, consistent recorded type),
then the run invokes no stage executor (empty trace), leaves the record —
`completedStages` and the outputs manifest included — unchanged, hands the
identical collection to `save_index_data`, and exits 0. -/
theorem C1_idempotent_run (args : Args) (index0 : List AssetData) (env : Env)
    (rec : AssetData) (bn : String)
    (hfind : find_asset_in_index index0 args.file_hash = some rec)
    (hdone : ∀ s ∈ applicableSteps (classifyType (extOf args)), s ∈ rec.processed_steps)
    (hbn : rec.base_name = some bn) (hbne : bn ≠ "")
    (hsrc : rec.source_file_path = args.input_file)
    (hurl : rec.raw_content_url_base = rawUrlOf args)
    (htype : rec.outputs.type = some (classifyType (extOf args))) :
    runMain args index0 env = ⟨rec, some index0, 0, [], rec.base_name⟩ := by
  have ha0 : prepAsset (find_asset_in_index index0 args.file_hash) args = rec := by
    rw [hfind]
    unfold prepAsset
    cases rec
    simp_all
  have hGEM : STEP_GEMINI_DESCRIPTION ∈ rec.processed_steps :=
    hdone _ (gem_applicable _)
  have hn : namingOf args index0 env = ⟨some bn, rec, rec.processed_steps, []⟩ := by
    unfold namingOf
    rw [ha0]
    exact geminiStage_skip hGEM hbn hbne
  have hrm := @runMain_run args index0 env bn (by rw [hn]) hbne
  rw [hrm, hn]
  have hupd : update_asset_in_index index0 rec = index0 := update_self hfind
  rcases classifyType_cases (extOf args) with hty | hty | hty
  · have ha1 : typedAsset ⟨some bn, rec, rec.processed_steps, []⟩ "image" = rec := by
      unfold typedAsset
      rw [hty] at htype
      cases rec with
      | mk sfp sh bnm dmp ps outs url =>
          cases outs
          simp_all
    rw [runAfterNaming_image hty]
    dsimp only
    rw [ha1]
    have hIMG : STEP_IMAGE_CONVERSION ∈ rec.processed_steps := by
      apply hdone
      rw [hty]
      unfold applicableSteps
      simp
    have hHTML : STEP_HTML_GENERATION ∈ rec.processed_steps := by
      apply hdone
      rw [hty]
      unfold applicableSteps
      simp
    rw [imageStage_skip hIMG]
    dsimp only
    rw [htmlStage_skip_done hHTML]
    dsimp only
    rw [if_neg (by decide)]
    rw [hupd, hbn]
    rfl
  · have ha1 : typedAsset ⟨some bn, rec, rec.processed_steps, []⟩ "video" = rec := by
      unfold typedAsset
      rw [hty] at htype
      cases rec with
      | mk sfp sh bnm dmp ps outs url =>
          cases outs
          simp_all
    rw [runAfterNaming_video hty]
    dsimp only
    rw [ha1]
    have hVID : STEP_VIDEO_CONVERSION ∈ rec.processed_steps := by
      apply hdone
      rw [hty]
      unfold applicableSteps
      simp [STEP_VIDEO_CONVERSION, STEP_GEMINI_DESCRIPTION]
    rw [videoStage_skip hVID]
    dsimp only
    rw [hupd, hbn]
    rfl
  · have ha1 : typedAsset ⟨some bn, rec, rec.processed_steps, []⟩ "unknown" = rec := by
      unfold typedAsset
      rw [hty] at htype
      cases rec with
      | mk sfp sh bnm dmp ps outs url =>
          cases outs
          simp_all
    rw [runAfterNaming_unknown hty]
    rw [ha1, hupd, hbn]

/-- Concrete run for the C1 witness: its arguments. -/
def c1Args : Args :=
  { input_file := "media/a.jpg", file_hash := "0123456789abcdef",
    github_repository := "o/r", github_ref_for_raw_url := "main" }

/-- Concrete run for the C1 witness: a fully processed record. -/
def c1Rec : AssetData :=
  { source_file_path := "media/a.jpg", source_hash := "0123456789abcdef",
    base_name := some "red-bicycle",
    description_markdown_path := some "processed_media/descriptions/red-bicycle.md",
    processed_steps := ["gemini_description", "html_generation", "image_conversion"],
    outputs :=
      { type := some "image", html_page_path := some "processed_media/html/red-bicycle.html",
        image_files := [], video_files := [] },
    raw_content_url_base := rawUrlOf c1Args }

/-- Concrete run for the C1 witness: an environment in which every external
operation would succeed. -/
def c1Env : Env :=
  { gemini := .ok "red-bicycle", imageConvertOk := fun _ _ => true,
    videoConvertOk := fun _ _ => true, htmlOk := true, fileExists := fun _ => true }

/-- Witness for C1 at a concrete fully processed image record. -/
theorem C1_idempotent_run_witness :
    runMain c1Args [c1Rec] c1Env = ⟨c1Rec, some [c1Rec], 0, [], c1Rec.base_name⟩ :=
  C1_idempotent_run c1Args [c1Rec] c1Env c1Rec "red-bicycle" (by decide) (by decide)
    (by decide) (by decide) (by decide) (by decide) (by decide)

/-- Claim C9: `load_index_data` returns the records when the file parses as a
list, and the empty collection when the file is absent, not parseable, or not
a list. -/
theorem C9_tolerant_load :
    load_index_data IndexFileState.absent = []
      ∧ load_index_data IndexFileState.malformed = []
      ∧ load_index_data IndexFileState.notList = []
      ∧ ∀ records, load_index_data (IndexFileState.list records) = records :=
  ⟨rfl, rfl, rfl, fun _ => rfl⟩

/-- Concrete records for the C5 counterexample. -/
def c5RecA : AssetData :=
  { source_file_path := "media/a.jpg", source_hash := "aaaa1111aaaa1111",
    base_name := some "old-asset", description_markdown_path := none,
    processed_steps := ["gemini_description"],
    outputs := { type := some "image", html_page_path := none, image_files := [], video_files := [] },
    raw_content_url_base := "https://raw.githubusercontent.com/o/r/main/" }

/-- Second concrete record for the C5 counterexample. -/
def c5RecB : AssetData :=
  { source_file_path := "media/b.jpg", source_hash := "bbbb2222bbbb2222",
    base_name := none, description_markdown_path := none,
    processed_steps := [],
    outputs := { type := some "image", html_page_path := none, image_files := [], video_files := [] },
    raw_content_url_base := "https://raw.githubusercontent.com/o/r/main/" }

/-- Counterexample to C5: saving `[c5RecA, c5RecB]` over a file that held
`[c5RecA]`, with the write failing immediately after the truncating open,
leaves a file that reflects neither the new collection nor the old one, and
that a subsequent load fails to parse (returning the empty collection).  So
`save_index_data` is not atomic and does not preserve the previous contents
on failure. -/
theorem C5_counterexample :
    (save_index_data (some ⟨[c5RecA], true⟩) [c5RecA, c5RecB] (.failAfter 0)).1
        ≠ ⟨[c5RecA, c5RecB], true⟩
      ∧ (save_index_data (some ⟨[c5RecA], true⟩) [c5RecA, c5RecB] (.failAfter 0)).1
        ≠ ⟨[c5RecA], true⟩
      ∧ stateOfText (save_index_data (some ⟨[c5RecA], true⟩) [c5RecA, c5RecB] (.failAfter 0)).1
        = IndexFileState.malformed
      ∧ load_index_data
          (stateOfText (save_index_data (some ⟨[c5RecA], true⟩) [c5RecA, c5RecB] (.failAfter 0)).1)
        = [] := by
  refine ⟨by decide, by decide, rfl, rfl⟩

/-- Claim C5 as amended: on a successful write `save_index_data` makes the
file reflect the entire new collection, but on a write failure it does not
leave the previous contents intact — the truncating open has already
destroyed them — and instead leaves an unterminated prefix that a subsequent
load fails to parse (yielding the empty collection); the `IOError` itself is
only logged, never propagated (the error flag is the second component). -/
theorem C5_amended_save (old : Option IndexFileText) (data : List AssetData) (k : Nat) :
    save_index_data old data .ok = (⟨data, true⟩, false)
      ∧ save_index_data old data (.failAfter k) = (⟨data.take k, false⟩, true)
      ∧ stateOfText (save_index_data old data (.failAfter k)).1 = IndexFileState.malformed
      ∧ load_index_data (stateOfText (save_index_data old data (.failAfter k)).1) = [] :=
  ⟨rfl, rfl, rfl, rfl⟩

/-- Claim C6: when the naming stage is pending and the Gemini step fails with
reason tag `tag`, the base name used for the rest of the run is the
deterministic fallback `generic-media-` + tag + the first 8 hash characters;
`gemini_description` is not in the completed-stage set at end of run (so
naming is retried next run); the record's stored `base_name` is untouched;
and any run with the same hash and same failure reason uses the identical
fallback name. -/
theorem C6_fallback_naming (args : Args) (index0 : List AssetData) (env : Env) (tag : String)
    (hpend : STEP_GEMINI_DESCRIPTION ∉
      (prepAsset (find_asset_in_index index0 args.file_hash) args).processed_steps)
    (htag : geminiFailTag env.gemini = some tag) :
    (runMain args index0 env).usedBase = some ("generic-media-" ++ tag ++ hash8 args)
      ∧ STEP_GEMINI_DESCRIPTION ∉ (runMain args index0 env).asset.processed_steps
      ∧ (runMain args index0 env).asset.base_name
          = (prepAsset (find_asset_in_index index0 args.file_hash) args).base_name
      ∧ ∀ args' index0' env',
          args'.file_hash = args.file_hash → geminiFailTag env'.gemini = some tag →
          STEP_GEMINI_DESCRIPTION ∉
            (prepAsset (find_asset_in_index index0' args'.file_hash) args').processed_steps →
          (runMain args' index0' env').usedBase = (runMain args index0 env).usedBase := by
  have key : ∀ (ar : Args) (ix : List AssetData) (ev : Env),
      STEP_GEMINI_DESCRIPTION ∉
        (prepAsset (find_asset_in_index ix ar.file_hash) ar).processed_steps →
      geminiFailTag ev.gemini = some tag →
      (runMain ar ix ev).usedBase = some ("generic-media-" ++ tag ++ hash8 ar)
        ∧ STEP_GEMINI_DESCRIPTION ∉ (runMain ar ix ev).asset.processed_steps
        ∧ (runMain ar ix ev).asset.base_name
            = (prepAsset (find_asset_in_index ix ar.file_hash) ar).base_name := by
    intro ar ix ev hp ht
    have hn : namingOf ar ix ev =
        ⟨some ("generic-media-" ++ tag ++ hash8 ar),
          prepAsset (find_asset_in_index ix ar.file_hash) ar,
          (prepAsset (find_asset_in_index ix ar.file_hash) ar).processed_steps,
          [Ev.gemini]⟩ := by
      unfold namingOf
      exact geminiStage_fail hp ht
    have hfb : ("generic-media-" ++ tag ++ hash8 ar) ≠ "" := by
      apply append_ne_empty_of_left
      rw [String.length_append]
      have h14 : ("generic-media-" : String).length = 14 := by decide
      omega
    have hrm := @runMain_run ar ix ev ("generic-media-" ++ tag ++ hash8 ar) (by rw [hn]) hfb
    rw [hrm]
    have hag : StepsAgree (namingOf ar ix ev).asset (namingOf ar ix ev).steps := by
      rw [hn]
      exact stepsAgree_self _
    refine ⟨runAfterNaming_usedBase _ _ _ _ _, ?_, ?_⟩
    · rw [runAfterNaming_steps_mem hag (by decide), hn]
      exact hp
    · rw [runAfterNaming_base, hn]
  refine ⟨(key args index0 env hpend htag).1, (key args index0 env hpend htag).2.1,
    (key args index0 env hpend htag).2.2, ?_⟩
  intro args' index0' env' hh ht' hp'
  rw [(key args' index0' env' hp' ht').1, (key args index0 env hpend htag).1]
  unfold hash8
  rw [hh]

/-- Concrete run for the C6 witness: its arguments. -/
def c6Args : Args :=
  { input_file := "media/a.jpg", file_hash := "0123456789abcdef",
    github_repository := "o/r", github_ref_for_raw_url := "main" }

/-- Concrete run for the C6 witness: the naming subprocess exits non-zero and
everything else succeeds. -/
def c6Env : Env :=
  { gemini := .scriptFailed, imageConvertOk := fun _ _ => true,
    videoConvertOk := fun _ _ => true, htmlOk := false, fileExists := fun _ => false }

/-- Witness for C6 on a fresh record with a non-zero naming exit. -/
theorem C6_fallback_naming_witness :
    (runMain c6Args [] c6Env).usedBase
        = some ("generic-media-" ++ "script-failed-" ++ hash8 c6Args)
      ∧ STEP_GEMINI_DESCRIPTION ∉ (runMain c6Args [] c6Env).asset.processed_steps
      ∧ (runMain c6Args [] c6Env).asset.base_name
          = (prepAsset (find_asset_in_index [] c6Args.file_hash) c6Args).base_name :=
  ⟨(C6_fallback_naming c6Args [] c6Env "script-failed-" (by decide) rfl).1,
    (C6_fallback_naming c6Args [] c6Env "script-failed-" (by decide) rfl).2.1,
    (C6_fallback_naming c6Args [] c6Env "script-failed-" (by decide) rfl).2.2.1⟩

/-- Claim C7: every stage identifier recorded as completed in the loaded
record is still in the record's completed-stage list at end of run, and
whatever collection is handed to `save_index_data` is exactly the loaded
collection with that final record upserted — no operation removes a stage. -/
theorem C7_monotone_steps (args : Args) (index0 : List AssetData) (env : Env)
    (rec : AssetData)
    (hfind : find_asset_in_index index0 args.file_hash = some rec) :
    (∀ s ∈ rec.processed_steps, s ∈ (runMain args index0 env).asset.processed_steps)
      ∧ (∀ d, (runMain args index0 env).savedIndex = some d →
          d = update_asset_in_index index0 (runMain args index0 env).asset) := by
  obtain ⟨b, hcb, hb⟩ := namingOf_cb args index0 env
  have hrm := runMain_run hcb hb
  rw [hrm]
  have hsteps0 : (prepAsset (find_asset_in_index index0 args.file_hash) args).processed_steps
      = rec.processed_steps := by
    rw [hfind]
    rfl
  have hag : StepsAgree (namingOf args index0 env).asset (namingOf args index0 env).steps := by
    unfold namingOf
    exact geminiStage_agree (stepsAgree_self _)
  constructor
  · intro s hs
    have hs0 : s ∈ (prepAsset (find_asset_in_index index0 args.file_hash) args).processed_steps := by
      rw [hsteps0]
      exact hs
    have h1 : s ∈ (namingOf args index0 env).steps := by
      unfold namingOf
      exact geminiStage_steps_mono hs0
    exact runAfterNaming_steps_mono hag s h1
  · exact runAfterNaming_saved

/-- Concrete record for the C7 witness. -/
def c7Rec : AssetData :=
  { source_file_path := "media/a.jpg", source_hash := "0123456789abcdef",
    base_name := some "red-bicycle",
    description_markdown_path := some "processed_media/descriptions/red-bicycle.md",
    processed_steps := ["gemini_description"],
    outputs := { type := some "image", html_page_path := none, image_files := [], video_files := [] },
    raw_content_url_base := "https://raw.githubusercontent.com/o/r/main/" }

/-- Witness for C7: a run that adds `image_conversion` keeps the previously
recorded `gemini_description`. -/
theorem C7_monotone_steps_witness :
    "gemini_description" ∈ (runMain c6Args [c7Rec] c6Env).asset.processed_steps :=
  (C7_monotone_steps c6Args [c7Rec] c6Env c7Rec (by decide)).1
    "gemini_description" (by decide)

/-- Claim C8 as amended: the exit code is 0 on every completed run — a store
write failure is logged and swallowed, never surfacing a non-zero exit, and
the no-usable-name abort of lines 214-219 is unreachable because every naming
outcome establishes a non-empty name.  The only non-zero exit is the uncaught
`TypeError` after a successful HTML page write, which terminates the run with
nothing handed to `save_index_data`. -/
theorem C8_amended_exit (args : Args) (index0 : List AssetData) (env : Env) :
    ((runMain args index0 env).exitCode = 0 ∨ (runMain args index0 env).exitCode = 1)
      ∧ ((runMain args index0 env).exitCode = 0 →
          ∃ d, (runMain args index0 env).savedIndex = some d)
      ∧ ((runMain args index0 env).exitCode = 1 →
          (runMain args index0 env).savedIndex = none ∧ env.htmlOk = true
            ∧ ∃ b2, Ev.htmlGen b2 ∈ (runMain args index0 env).trace) := by
  obtain ⟨b, hcb, hb⟩ := namingOf_cb args index0 env
  rw [runMain_run hcb hb]
  rcases classifyType_cases (extOf args) with hty | hty | hty
  · rw [runAfterNaming_image hty]
    dsimp only
    split
    · next hcr =>
        obtain ⟨hok, htr⟩ := htmlStage_crash hcr
        refine ⟨Or.inr rfl, ?_, ?_⟩
        · intro h0
          cases h0
        · intro _
          refine ⟨rfl, hok, b, ?_⟩
          rw [htr]
          exact List.mem_append_right _ (List.mem_singleton_self _)
    · refine ⟨Or.inl rfl, fun _ => ⟨_, rfl⟩, ?_⟩
      intro h1
      cases h1
  · rw [runAfterNaming_video hty]
    refine ⟨Or.inl rfl, fun _ => ⟨_, rfl⟩, ?_⟩
    intro h1
    cases h1
  · rw [runAfterNaming_unknown hty]
    refine ⟨Or.inl rfl, fun _ => ⟨_, rfl⟩, ?_⟩
    intro h1
    cases h1

/-- Concrete run for the C8 counterexample and witness: an unrecognized
extension, so the run only names and persists. -/
def c8Args : Args :=
  { input_file := "notes.txt", file_hash := "cafe0000cafe0000",
    github_repository := "o/r", github_ref_for_raw_url := "main" }

/-- Concrete environment for the C8 counterexample: naming succeeds. -/
def c8Env : Env :=
  { gemini := .ok "meeting-notes", imageConvertOk := fun _ _ => true,
    videoConvertOk := fun _ _ => true, htmlOk := true, fileExists := fun _ => true }

/-- Counterexample to C8: a run in which the store cannot be written at all —
the `IOError` strikes before any record is emitted, leaving an unparseable
file and only a logged error — still exits 0.  The claimed non-zero exit on
an unwritable store never happens, because `save_index_data` swallows the
error. -/
theorem C8_counterexample :
    (runMain c8Args [] c8Env).exitCode = 0
      ∧ ∃ d, (runMain c8Args [] c8Env).savedIndex = some d
          ∧ (save_index_data (some ⟨[], true⟩) d (.failAfter 0)).2 = true
          ∧ stateOfText (save_index_data (some ⟨[], true⟩) d (.failAfter 0)).1
              = IndexFileState.malformed
          ∧ load_index_data
              (stateOfText (save_index_data (some ⟨[], true⟩) d (.failAfter 0)).1) = [] :=
  ⟨by decide, ((runMain c8Args [] c8Env).savedIndex).getD [], by decide, rfl, rfl, rfl⟩

/-- Concrete environment for the C8 witness: as `c8Env` but for an image, so
the successful HTML write crashes the run. -/
def c8wArgs : Args :=
  { input_file := "media/a.jpg", file_hash := "0123456789abcdef",
    github_repository := "o/r", github_ref_for_raw_url := "main" }

/-- Witness for C8 as amended, exercising the crash branch: exit 1 with
nothing saved after a successful HTML generation. -/
theorem C8_amended_exit_witness :
    (runMain c8wArgs [] c8Env).savedIndex = none ∧ c8Env.htmlOk = true
      ∧ ∃ b2, Ev.htmlGen b2 ∈ (runMain c8wArgs [] c8Env).trace :=
  (C8_amended_exit c8wArgs [] c8Env).2.2 (by decide)

/-- Concrete run for the C10 code-bug theorem: a video asset whose naming and
every external conversion succeed. -/
def c10Args : Args :=
  { input_file := "media/clip.mp4", file_hash := "feedfacecafebeef",
    github_repository := "o/r", github_ref_for_raw_url := "main" }

/-- Concrete environment for the C10 code-bug theorem: every external
operation succeeds. -/
def c10Env : Env :=
  { gemini := .ok "sunset-clip", imageConvertOk := fun _ _ => true,
    videoConvertOk := fun _ _ => true, htmlOk := true, fileExists := fun _ => true }

/-- Claim C10, evaluated at the failing input: although every `ffmpeg`
conversion succeeds, the `str / str` `TypeError` of line 429 aborts the video
loop on its very first sub-unit, so the persisted `outputs.video_files` is
the cleared empty list — not one entry per successful sub-unit — the trace
shows that only the 1080p MP4 conversion was ever attempted, and
`video_conversion` is withheld; the run still exits 0 and saves. -/
theorem C10_video_manifest_bug :
    (∀ h f, c10Env.videoConvertOk h f = true)
      ∧ (runMain c10Args [] c10Env).asset.outputs.video_files = []
      ∧ STEP_VIDEO_CONVERSION ∉ (runMain c10Args [] c10Env).asset.processed_steps
      ∧ (runMain c10Args [] c10Env).trace
          = [Ev.gemini, Ev.videoConv 1080 "mp4" "sunset-clip"]
      ∧ (runMain c10Args [] c10Env).exitCode = 0 :=
  ⟨fun _ _ => rfl, by decide, by decide, by decide, by decide⟩

/-- Counterexample to C4: with the naming subprocess exiting non-zero on a
fresh image record, the image-derivative executor is nevertheless invoked —
with the placeholder fallback name — even though the record's `base_name` is
still null and `gemini_description` never succeeded.  Stages deriving
filenames are not skipped when naming has not succeeded. -/
theorem C4_counterexample :
    Ev.imageConv 1920 "jpg" "generic-media-script-failed-01234567"
        ∈ (runMain c6Args [] c6Env).trace
      ∧ (runMain c6Args [] c6Env).asset.base_name = none
      ∧ STEP_GEMINI_DESCRIPTION ∉ (runMain c6Args [] c6Env).asset.processed_steps :=
  ⟨by decide, by decide, by decide⟩

/-- Claim C4 as amended: every invocation of a filename-deriving executor
(image conversion, video conversion, HTML generation) uses the run's
established base name, which is never null or empty — it is either the
successful Gemini name or the deterministic fallback; a run never reaches
these stages without some usable name, because the no-name abort would fire
first. -/
theorem C4_amended_nonempty_base (args : Args) (index0 : List AssetData) (env : Env) :
    ∀ ev ∈ (runMain args index0 env).trace, ∀ bx, evBase ev = some bx →
      bx ≠ "" ∧ (runMain args index0 env).usedBase = some bx := by
  obtain ⟨b, hcb, hb⟩ := namingOf_cb args index0 env
  rw [runMain_run hcb hb]
  intro ev hev bx hbx
  have hbxb : bx = b := by
    rcases classifyType_cases (extOf args) with hty | hty | hty
    · rw [(runAfterNaming_image_shape hty).2] at hev
      rcases List.mem_append.mp hev with h12 | h3
      · rcases List.mem_append.mp h12 with h1 | h2
        · obtain ⟨rfl, _⟩ := naming_trace_pending args index0 env ev h1
          simp only [evBase] at hbx
          exact Option.noConfusion hbx
        · obtain ⟨⟨w, hw, f, rfl⟩, _⟩ := imageStage_trace_sub ev h2
          simp only [evBase, Option.some.injEq] at hbx
          exact hbx.symm
      · obtain ⟨rfl, _, _⟩ := htmlStage_trace_sub ev h3
        simp only [evBase, Option.some.injEq] at hbx
        exact hbx.symm
    · rw [runAfterNaming_video hty] at hev
      dsimp only at hev
      rcases List.mem_append.mp hev with h1 | h2
      · obtain ⟨rfl, _⟩ := naming_trace_pending args index0 env ev h1
        simp only [evBase] at hbx
        exact Option.noConfusion hbx
      · obtain ⟨rfl, _⟩ := videoStage_trace_sub ev h2
        simp only [evBase, Option.some.injEq] at hbx
        exact hbx.symm
    · rw [runAfterNaming_unknown hty] at hev
      dsimp only at hev
      obtain ⟨rfl, _⟩ := naming_trace_pending args index0 env ev hev
      simp only [evBase] at hbx
      exact Option.noConfusion hbx
  subst hbxb
  exact ⟨hb, runAfterNaming_usedBase _ _ _ _ _⟩

/-- Witness for C4 as amended: the fallback-named conversion of the
counterexample run indeed uses the non-empty run base name. -/
theorem C4_amended_nonempty_base_witness :
    "generic-media-script-failed-01234567" ≠ ""
      ∧ (runMain c6Args [] c6Env).usedBase = some "generic-media-script-failed-01234567" :=
  C4_amended_nonempty_base c6Args [] c6Env
    (Ev.imageConv 1920 "jpg" "generic-media-script-failed-01234567") (by decide)
    "generic-media-script-failed-01234567" rfl

/-- Claim C3: every stage executor runs only when its stage identifier is not
in the loaded record's completed-stage set; the HTML generation body runs
only when `image_conversion` is observable (in the record's completed-stage
list at end of run, or via the on-disk check), and the disk fallback decides
the gate through exactly the one well-known path `expectedImagePath`: under
the image classification, a pending HTML step runs exactly when the flag or
that single existence probe holds. -/
theorem C3_step_gate (args : Args) (index0 : List AssetData) (env : Env) :
    (∀ ev ∈ (runMain args index0 env).trace,
        stepOfEv ev ∉
          (prepAsset (find_asset_in_index index0 args.file_hash) args).processed_steps)
      ∧ (∀ b2, Ev.htmlGen b2 ∈ (runMain args index0 env).trace →
          STEP_IMAGE_CONVERSION ∈ (runMain args index0 env).asset.processed_steps
            ∨ env.fileExists (expectedImagePath b2) = true)
      ∧ (classifyType (extOf args) = "image" →
          STEP_HTML_GENERATION ∉
            (prepAsset (find_asset_in_index index0 args.file_hash) args).processed_steps →
          ∀ b2, (runMain args index0 env).usedBase = some b2 →
          (STEP_IMAGE_CONVERSION ∈ (runMain args index0 env).asset.processed_steps
            ∨ env.fileExists (expectedImagePath b2) = true) →
          Ev.htmlGen b2 ∈ (runMain args index0 env).trace) := by
  obtain ⟨b, hcb, hb⟩ := namingOf_cb args index0 env
  rw [runMain_run hcb hb]
  have hag : StepsAgree (namingOf args index0 env).asset (namingOf args index0 env).steps := by
    unfold namingOf
    exact geminiStage_agree (stepsAgree_self _)
  have hnsteps : ∀ x, x ≠ STEP_GEMINI_DESCRIPTION →
      (x ∈ (namingOf args index0 env).steps ↔
        x ∈ (prepAsset (find_asset_in_index index0 args.file_hash) args).processed_steps) := by
    intro x hx
    unfold namingOf
    exact geminiStage_steps_mem hx
  refine ⟨?_, ?_, ?_⟩
  · -- each executor runs only with its stage pending in the loaded record
    intro ev hev
    rcases classifyType_cases (extOf args) with hty | hty | hty
    · rw [(runAfterNaming_image_shape hty).2] at hev
      rcases List.mem_append.mp hev with h12 | h3
      · rcases List.mem_append.mp h12 with h1 | h2
        · obtain ⟨rfl, hpend⟩ := naming_trace_pending args index0 env ev h1
          exact hpend
        · obtain ⟨⟨w, hw, f, rfl⟩, hpend⟩ := imageStage_trace_sub ev h2
          simp only [stepOfEv]
          intro hc
          exact hpend ((hnsteps _ (by decide)).mpr hc)
      · obtain ⟨rfl, hpend, _⟩ := htmlStage_trace_sub ev h3
        simp only [stepOfEv]
        intro hc
        apply hpend
        rw [imageStage_steps_mem (by decide)]
        exact (hnsteps _ (by decide)).mpr hc
    · rw [runAfterNaming_video hty] at hev
      dsimp only at hev
      rcases List.mem_append.mp hev with h1 | h2
      · obtain ⟨rfl, hpend⟩ := naming_trace_pending args index0 env ev h1
        exact hpend
      · obtain ⟨rfl, hpend⟩ := videoStage_trace_sub ev h2
        simp only [stepOfEv]
        intro hc
        exact hpend ((hnsteps _ (by decide)).mpr hc)
    · rw [runAfterNaming_unknown hty] at hev
      dsimp only at hev
      obtain ⟨rfl, hpend⟩ := naming_trace_pending args index0 env ev hev
      exact hpend
  · -- the html executor requires its dependency
    intro b2 hmem
    rcases classifyType_cases (extOf args) with hty | hty | hty
    · rw [(runAfterNaming_image_shape hty).2] at hmem
      rw [(runAfterNaming_image_shape hty).1]
      rcases List.mem_append.mp hmem with h12 | h3
      · exfalso
        rcases List.mem_append.mp h12 with h1 | h2
        · obtain ⟨heq, _⟩ := naming_trace_pending args index0 env _ h1
          cases heq
        · obtain ⟨⟨w, hw, f, heq⟩, _⟩ := imageStage_trace_sub _ h2
          cases heq
      · obtain ⟨heq, hpend, hgate⟩ := htmlStage_trace_sub _ h3
        injection heq with hb2
        rcases hgate with hflag | hdisk
        · left
          have hpost := @imageStage_agree env b
            (typedAsset (namingOf args index0 env) "image")
            (namingOf args index0 env).steps hag
          exact (hpost _).mp hflag
        · right
          rw [hb2]
          exact hdisk
    · exfalso
      rw [runAfterNaming_video hty] at hmem
      dsimp only at hmem
      rcases List.mem_append.mp hmem with h1 | h2
      · obtain ⟨heq, _⟩ := naming_trace_pending args index0 env _ h1
        cases heq
      · obtain ⟨heq, _⟩ := videoStage_trace_sub _ h2
        cases heq
    · exfalso
      rw [runAfterNaming_unknown hty] at hmem
      dsimp only at hmem
      obtain ⟨heq, _⟩ := naming_trace_pending args index0 env _ hmem
      cases heq
  · -- conversely, an observable dependency makes a pending html step run
    intro hty hhtml0 b2 husd hdep
    have hb2 : b2 = b := by
      rw [runAfterNaming_usedBase] at husd
      injection husd with h
      exact h.symm
    rw [hb2] at hdep ⊢
    rw [(runAfterNaming_image_shape hty).2]
    rw [(runAfterNaming_image_shape hty).1] at hdep
    have hpost := @imageStage_agree env b
      (typedAsset (namingOf args index0 env) "image")
      (namingOf args index0 env).steps hag
    have hgate : STEP_IMAGE_CONVERSION ∈
          (imageStage env b (typedAsset (namingOf args index0 env) "image")
            (namingOf args index0 env).steps).steps
        ∨ env.fileExists (expectedImagePath b) = true := by
      rcases hdep with hflag | hdisk
      · exact Or.inl ((hpost _).mpr hflag)
      · exact Or.inr hdisk
    have hhtml1 : STEP_HTML_GENERATION ∉
        (imageStage env b (typedAsset (namingOf args index0 env) "image")
          (namingOf args index0 env).steps).steps := by
      rw [imageStage_steps_mem (by decide)]
      intro hc
      exact hhtml0 ((hnsteps _ (by decide)).mp hc)
    rw [htmlStage_run hgate hhtml1]
    exact List.mem_append_right _ (List.mem_singleton_self _)

/-- Concrete run for the C3 witness: an image whose derivatives are already
recorded but whose page is pending. -/
def c3Rec : AssetData :=
  { source_file_path := "media/a.jpg", source_hash := "0123456789abcdef",
    base_name := some "red-bicycle",
    description_markdown_path := some "processed_media/descriptions/red-bicycle.md",
    processed_steps := ["gemini_description", "image_conversion"],
    outputs := { type := some "image", html_page_path := none, image_files := [], video_files := [] },
    raw_content_url_base := "https://raw.githubusercontent.com/o/r/main/" }

/-- Concrete environment for the C3 witness. -/
def c3Env : Env :=
  { gemini := .ok "red-bicycle", imageConvertOk := fun _ _ => true,
    videoConvertOk := fun _ _ => true, htmlOk := false, fileExists := fun _ => false }

/-- Witness for C3: with `image_conversion` recorded and `html_generation`
pending, the HTML body runs for the stored base name. -/
theorem C3_step_gate_witness :
    Ev.htmlGen "red-bicycle" ∈ (runMain c6Args [c3Rec] c3Env).trace :=
  (C3_step_gate c6Args [c3Rec] c3Env).2.2 (by decide) (by decide) "red-bicycle"
    (by decide) (Or.inl (by decide))

/-- Claim C2: when the image (resp. video) derivative stage runs, a failing
sub-unit (a size class / encoding conversion) means the size classes after it
are never attempted in that run and the stage identifier is absent from the
record's completed-stage list at end of run; and the identifier is in that
list only when every configured sub-unit succeeded. -/
theorem C2_all_or_nothing (args : Args) (index0 : List AssetData) (env : Env) :
    (classifyType (extOf args) = "image" →
      STEP_IMAGE_CONVERSION ∉
        (prepAsset (find_asset_in_index index0 args.file_hash) args).processed_steps →
      (∀ w ∈ imageWidthsList, ∀ f, (f = "jpg" ∨ f = "webp") →
          env.imageConvertOk w f = false →
          STEP_IMAGE_CONVERSION ∉ (runMain args index0 env).asset.processed_steps
            ∧ ∀ w' ∈ widthsAfter w, ∀ f' b',
                Ev.imageConv w' f' b' ∉ (runMain args index0 env).trace)
        ∧ (STEP_IMAGE_CONVERSION ∈ (runMain args index0 env).asset.processed_steps →
            ∀ w ∈ imageWidthsList,
              env.imageConvertOk w "jpg" = true ∧ env.imageConvertOk w "webp" = true))
      ∧ (classifyType (extOf args) = "video" →
          STEP_VIDEO_CONVERSION ∉
            (prepAsset (find_asset_in_index index0 args.file_hash) args).processed_steps →
          (∀ h ∈ videoHeightsList, ∀ f, (f = "mp4" ∨ f = "webm") →
              env.videoConvertOk h f = false →
              STEP_VIDEO_CONVERSION ∉ (runMain args index0 env).asset.processed_steps
                ∧ ∀ h' ∈ heightsAfter h, ∀ f' b',
                    Ev.videoConv h' f' b' ∉ (runMain args index0 env).trace)
            ∧ (STEP_VIDEO_CONVERSION ∈ (runMain args index0 env).asset.processed_steps →
                ∀ h ∈ videoHeightsList,
                  env.videoConvertOk h "mp4" = true ∧ env.videoConvertOk h "webm" = true)) := by
  obtain ⟨b, hcb, hb⟩ := namingOf_cb args index0 env
  rw [runMain_run hcb hb]
  have hag : StepsAgree (namingOf args index0 env).asset (namingOf args index0 env).steps := by
    unfold namingOf
    exact geminiStage_agree (stepsAgree_self _)
  have hnsteps : ∀ x, x ≠ STEP_GEMINI_DESCRIPTION →
      (x ∈ (namingOf args index0 env).steps ↔
        x ∈ (prepAsset (find_asset_in_index index0 args.file_hash) args).processed_steps) := by
    intro x hx
    unfold namingOf
    exact geminiStage_steps_mem hx
  constructor
  · intro hty himg0
    have himgn : STEP_IMAGE_CONVERSION ∉ (namingOf args index0 env).steps :=
      fun hc => himg0 ((hnsteps _ (by decide)).mp hc)
    have hiff := @runAfterNaming_imgstep_mem args index0 env (namingOf args index0 env) b hag himgn hty
    constructor
    · intro w hw f hf hfail
      have hnotok : (imageLoop env b imageWidthsList).ok ≠ true := by
        intro hok
        have hall := (imageLoop_ok_iff env b imageWidthsList).mp hok w hw
        rcases hf with rfl | rfl
        · rw [hall.1] at hfail
          cases hfail
        · rw [hall.2] at hfail
          cases hfail
      constructor
      · intro hc
        exact hnotok (hiff.mp hc)
      · intro w' hw' f' b' hmemtr
        rw [(runAfterNaming_image_shape hty).2] at hmemtr
        rcases List.mem_append.mp hmemtr with h12 | h3
        · rcases List.mem_append.mp h12 with h1 | h2
          · obtain ⟨heq, _⟩ := naming_trace_pending args index0 env _ h1
            cases heq
          · rw [imageStage_run_trace himgn] at h2
            exact imageLoop_stop env b w f hw hf hfail w' hw' f' b' h2
        · obtain ⟨heq, _, _⟩ := htmlStage_trace_sub _ h3
          cases heq
    · intro hmark w hw
      exact (imageLoop_ok_iff env b imageWidthsList).mp (hiff.mp hmark) w hw
  · intro hty hvid0
    have hvidn : STEP_VIDEO_CONVERSION ∉ (namingOf args index0 env).steps :=
      fun hc => hvid0 ((hnsteps _ (by decide)).mp hc)
    have hnotmark : STEP_VIDEO_CONVERSION ∉
        (runAfterNaming args index0 env (namingOf args index0 env) b).asset.processed_steps := by
      rw [runAfterNaming_steps_mem hag (by decide)]
      intro hc
      exact hvidn ((hag _).mpr hc)
    constructor
    · intro h hh f hf hfail
      refine ⟨hnotmark, ?_⟩
      intro h' hh' f' b' hmemtr
      rw [runAfterNaming_video hty] at hmemtr
      dsimp only at hmemtr
      rcases List.mem_append.mp hmemtr with h1 | h2
      · obtain ⟨heq, _⟩ := naming_trace_pending args index0 env _ h1
        cases heq
      · obtain ⟨heq, _⟩ := videoStage_trace_sub _ h2
        have hh2 : h = 1080 ∨ h = 720 := by
          simpa [videoHeightsList] using hh
        rcases hh2 with rfl | rfl
        · have h720 : h' = 720 := by
            simpa [heightsAfter] using hh'
          rw [h720] at heq
          injection heq with e1 e2 e3
          exact absurd e1 (by decide)
        · simp only [heightsAfter, if_neg (by decide : ¬ (720 = 1080))] at hh'
          cases hh'
    · intro hmark
      exact absurd hmark hnotmark

/-- Concrete environment for the C2 witness: the 1280-width JPEG conversion
fails, everything else succeeds. -/
def c2Env : Env :=
  { gemini := .ok "red-bicycle",
    imageConvertOk := fun w f => !(w == 1280 && f == "jpg"),
    videoConvertOk := fun _ _ => true, htmlOk := false, fileExists := fun _ => false }

/-- Witness for C2: with the 1280w JPEG failing, `image_conversion` is absent
from the persisted step list and no 640-width conversion is attempted. -/
theorem C2_all_or_nothing_witness :
    STEP_IMAGE_CONVERSION ∉ (runMain c6Args [] c2Env).asset.processed_steps
      ∧ ∀ f' b', Ev.imageConv 640 f' b' ∉ (runMain c6Args [] c2Env).trace :=
  ⟨((C2_all_or_nothing c6Args [] c2Env).1 (by decide) (by decide)).1 1280 (by decide)
      "jpg" (Or.inl rfl) (by decide) |>.1,
    fun f' b' =>
      (((C2_all_or_nothing c6Args [] c2Env).1 (by decide) (by decide)).1 1280 (by decide)
        "jpg" (Or.inl rfl) (by decide)).2 640 (by decide) f' b'⟩

end ProcessFile
